import Mathlib

/-!
Verification development for the XML metadata decoding core of the
officeParser repository (src/src/utils/xmlUtils.ts).

The source operates on a DOM tree produced by the external DOMParser
collaborator; we embed the parsed tree directly as an inductive type of
element and text nodes, so every decoder below takes the parsed document
(a list of top-level nodes) instead of the raw XML string.  The external
ECMAScript conversions Number(text) and new Date(text) are modelled by
executable functions jsNumber and jsDateParse.  All decoder definitions
are translated statement by statement from parseOfficeMetadata and
parseOOXMLCustomProperties in xmlUtils.ts.
-/

namespace OfficeParser

/-- A node of the parsed XML tree: an element with a tag name, an attribute
list and child nodes, or a text node.  This is the shape of the tree the
external DOMParser collaborator hands to the decoders. -/
inductive XmlNode where
  | element (tag : String) (attrs : List (String × String)) (children : List XmlNode)
  | text (s : String)

/-- A parsed document: the list of top-level child nodes of the Document. -/
abbrev XmlDoc := List XmlNode

/-- Child nodes of a node (text nodes have none), as in node.childNodes. -/
def XmlNode.childNodes : XmlNode → List XmlNode
  | .element _ _ c => c
  | .text _ => []

/-- Tag name of a node; the empty string for a text node, mirroring the
source expression el.tagName with a fallback to the empty string. -/
def XmlNode.tagName : XmlNode → String
  | .element t _ _ => t
  | .text _ => ""

mutual
/-- Concatenated text content of a node, as in the DOM textContent
property: text nodes give their data, elements concatenate the text of
their descendants in document order. -/
def textContent : XmlNode → String
  | .text s => s
  | .element _ _ c => textContentList c

/-- textContent of a list of sibling nodes, concatenated in order. -/
def textContentList : List XmlNode → String
  | [] => ""
  | n :: ns => textContent n ++ textContentList ns
end

mutual
/-- All elements in the subtree rooted at a node, the node itself
included, whose tag equals tagName, in document order (depth-first
preorder).  Applied to the child lists below it models
getElementsByTagName from the source. -/
def nodeElems (tagName : String) : XmlNode → List XmlNode
  | .element t a c =>
      (if t = tagName then [XmlNode.element t a c] else []) ++ listElems tagName c
  | .text _ => []

/-- All matching elements inside a list of sibling subtrees, in document
order.  On the top-level node list of a document this is exactly
getElementsByTagName(document, tagName); on the child list of an element
it is exactly getElementsByTagName(element, tagName), which searches
descendants only. -/
def listElems (tagName : String) : List XmlNode → List XmlNode
  | [] => []
  | n :: ns => nodeElems tagName n ++ listElems tagName ns
end

/-- Attribute lookup, as in el.getAttribute(name): the value of the first
attribute with the given name, or none when absent. -/
def getAttr (el : XmlNode) (name : String) : Option String :=
  match el with
  | .element _ attrs _ => (attrs.find? (fun p => p.1 = name)).map (fun p => p.2)
  | .text _ => none

/-- Model of the ECMAScript number value as observed by the decoders:
finite values are kept exactly as rationals, the two infinities are kept
symbolically.  NaN is represented by Option.none at the conversion. -/
inductive JSNum where
  | fin (q : ℚ)
  | posInf
  | negInf
deriving DecidableEq

/-- Model of the ECMAScript Date value: a valid calendar timestamp with
its components, or the invalid date (the one whose getTime() is NaN). -/
inductive JSDate where
  | valid (y mo d hh mi ss : Nat)
  | invalid
deriving DecidableEq

/-- Characters treated as whitespace by the ECMAScript ToNumber
conversion (the ones stripped before parsing a numeric literal). -/
def isJsWs (c : Char) : Bool :=
  c = ' ' || c = '\t' || c = '\n' || c = '\r' ||
  c = Char.ofNat 11 || c = Char.ofNat 12 || c = Char.ofNat 0xa0 || c = Char.ofNat 0xfeff

/-- Decimal digit test. -/
def isDigit (c : Char) : Bool := '0' ≤ c && c ≤ '9'

/-- Numeric value of a decimal digit character. -/
def digVal (c : Char) : Nat := c.toNat - '0'.toNat

/-- Value of a list of decimal digit characters. -/
def digitsVal (l : List Char) : Nat := l.foldl (fun a c => a * 10 + digVal c) 0

/-- Hexadecimal digit test. -/
def isHexDigit (c : Char) : Bool :=
  isDigit c || ('a' ≤ c && c ≤ 'f') || ('A' ≤ c && c ≤ 'F')

/-- Value of a hexadecimal digit character. -/
def hexVal (c : Char) : Nat :=
  if isDigit c then digVal c
  else if 'a' ≤ c && c ≤ 'f' then c.toNat - 'a'.toNat + 10
  else c.toNat - 'A'.toNat + 10

/-- Value of a list of hexadecimal digit characters. -/
def hexDigitsVal (l : List Char) : Nat := l.foldl (fun a c => a * 16 + hexVal c) 0

/-- Octal digit test. -/
def isOctDigit (c : Char) : Bool := '0' ≤ c && c ≤ '7'

/-- Value of a list of octal digit characters. -/
def octDigitsVal (l : List Char) : Nat := l.foldl (fun a c => a * 8 + digVal c) 0

/-- Binary digit test. -/
def isBinDigit (c : Char) : Bool := c = '0' || c = '1'

/-- Value of a list of binary digit characters. -/
def binDigitsVal (l : List Char) : Nat := l.foldl (fun a c => a * 2 + digVal c) 0

/-- Integer power of ten as a rational, for decimal exponents. -/
def pow10 (e : Int) : ℚ :=
  if 0 ≤ e then ((10 : ℚ) ^ e.toNat) else 1 / (10 : ℚ) ^ (-e).toNat

/-- Value of a decimal literal from its integer digits, fraction digits
and exponent. -/
def decValue (ip fp : List Char) (e : Int) : ℚ :=
  (digitsVal (ip ++ fp) : ℚ) * pow10 (e - (fp.length : Int))

/-- Parse the optional exponent part of a decimal literal: either the
empty remainder (exponent zero) or e or E followed by an optional sign
and at least one digit, consuming the whole remainder. -/
def parseExpPart : List Char → Option Int
  | [] => some 0
  | c :: rest =>
    if c = 'e' || c = 'E' then
      match rest with
      | '+' :: ds => if ds ≠ [] ∧ ds.all isDigit then some (digitsVal ds) else none
      | '-' :: ds => if ds ≠ [] ∧ ds.all isDigit then some (-(digitsVal ds : Int)) else none
      | ds => if ds ≠ [] ∧ ds.all isDigit then some (digitsVal ds) else none
    else none

/-- Parse an unsigned decimal literal covering the whole character list:
digits, digits followed by a point and optional fraction digits, or a
point followed by digits, each with an optional exponent. -/
def parseUDec (cs : List Char) : Option ℚ :=
  let ip := cs.takeWhile isDigit
  let rest := cs.dropWhile isDigit
  match rest with
  | '.' :: rest2 =>
    let fp := rest2.takeWhile isDigit
    let rest3 := rest2.dropWhile isDigit
    if ip = [] ∧ fp = [] then none
    else
      match parseExpPart rest3 with
      | some e => some (decValue ip fp e)
      | none => none
  | _ =>
    if ip = [] then none
    else
      match parseExpPart rest with
      | some e => some (decValue ip [] e)
      | none => none

/-- Parse a signed decimal literal: an optional leading plus or minus
sign followed by an unsigned decimal literal. -/
def jsDecSigned (cs : List Char) : Option JSNum :=
  match cs with
  | '+' :: rest => (parseUDec rest).map (fun q => JSNum.fin q)
  | '-' :: rest => (parseUDec rest).map (fun q => JSNum.fin (-q))
  | _ => (parseUDec cs).map (fun q => JSNum.fin q)

/-- Strip leading and trailing ECMAScript whitespace from a string,
returning the remaining character list. -/
def jsTrim (s : String) : List Char :=
  ((s.data.dropWhile isJsWs).reverse.dropWhile isJsWs).reverse

/-- Model of the external ECMAScript Number(text) conversion composed
with the isNaN check used by the decoders: none stands for NaN, some for
a non-NaN number.  The whitespace-trimmed empty string converts to zero;
Infinity with an optional sign, hexadecimal, octal and binary integer
literals without a sign, and signed decimal literals convert to their
values; everything else is NaN. -/
def jsNumber (s : String) : Option JSNum :=
  let cs := jsTrim s
  if cs = [] then some (JSNum.fin 0)
  else if cs = "Infinity".data ∨ cs = "+Infinity".data then some JSNum.posInf
  else if cs = "-Infinity".data then some JSNum.negInf
  else
    match cs with
    | '0' :: c :: rest =>
      if c = 'x' || c = 'X' then
        if rest ≠ [] ∧ rest.all isHexDigit then some (JSNum.fin (hexDigitsVal rest)) else none
      else if c = 'o' || c = 'O' then
        if rest ≠ [] ∧ rest.all isOctDigit then some (JSNum.fin (octDigitsVal rest)) else none
      else if c = 'b' || c = 'B' then
        if rest ≠ [] ∧ rest.all isBinDigit then some (JSNum.fin (binDigitsVal rest)) else none
      else jsDecSigned cs
    | _ => jsDecSigned cs

/-- Read exactly n decimal digit characters from the front of a list,
returning their value and the remainder. -/
def readN (n : Nat) (cs : List Char) : Option (Nat × List Char) :=
  let ds := cs.take n
  if ds.length = n ∧ ds.all isDigit then some (digitsVal ds, cs.drop n) else none

/-- Model of the external ECMAScript new Date(text) constructor combined
with the isNaN(getTime()) validity test used by the decoders: ISO-8601
calendar strings YYYY-MM-DD, optionally followed by Thh:mm:ss and an
optional trailing Z, with in-range components, give a valid timestamp;
every other string gives the invalid date. -/
def jsDateParse (s : String) : JSDate :=
  match readN 4 s.data with
  | none => JSDate.invalid
  | some (y, r1) =>
    match r1 with
    | '-' :: r2 =>
      match readN 2 r2 with
      | none => JSDate.invalid
      | some (mo, r3) =>
        match r3 with
        | '-' :: r4 =>
          match readN 2 r4 with
          | none => JSDate.invalid
          | some (d, r5) =>
            match r5 with
            | [] =>
              if 1 ≤ mo ∧ mo ≤ 12 ∧ 1 ≤ d ∧ d ≤ 31 then JSDate.valid y mo d 0 0 0
              else JSDate.invalid
            | 'T' :: r6 =>
              match readN 2 r6 with
              | some (hh, ':' :: r7) =>
                match readN 2 r7 with
                | some (mi, ':' :: r8) =>
                  match readN 2 r8 with
                  | some (ss, r9) =>
                    if (r9 = [] ∨ r9 = ['Z']) ∧
        1 ≤ mo ∧ mo ≤ 12 ∧ 1 ≤ d ∧ d ≤ 31 ∧ hh ≤ 23 ∧ mi ≤ 59 ∧ ss ≤ 59 then
                      JSDate.valid y mo d hh mi ss
                    else JSDate.invalid
                  | _ => JSDate.invalid
                | _ => JSDate.invalid
              | _ => JSDate.invalid
            | _ => JSDate.invalid
        | _ => JSDate.invalid
    | _ => JSDate.invalid

/-- A decoded property value: the union type string, number, boolean or
Date used for custom property maps in the source. -/
inductive JSValue where
  | str (s : String)
  | num (n : JSNum)
  | bool (b : Bool)
  | date (d : JSDate)
deriving DecidableEq

/-- A JavaScript object used as a string-keyed map, in insertion order. -/
abbrev PropMap := List (String × JSValue)

/-- Property assignment on a JavaScript object: when the key is present
its value is replaced in place, otherwise the pair is appended. -/
def recordSet : PropMap → String → JSValue → PropMap
  | [], k, v => [(k, v)]
  | p :: rest, k, v => if p.1 = k then (k, v) :: rest else p :: recordSet rest k v

/-- Property read on a JavaScript object: the value bound to the key, or
none when the key is absent. -/
def recordGet : PropMap → String → Option JSValue
  | [], _ => none
  | p :: rest, k => if p.1 = k then some p.2 else recordGet rest k

/-- The normalized metadata record returned by parseOfficeMetadata; all
fields are optional and absent by default, matching the OfficeMetadata
interface of the source. -/
structure OfficeMetadata where
  title : Option String := none
  author : Option String := none
  lastModifiedBy : Option String := none
  created : Option JSDate := none
  modified : Option JSDate := none
  description : Option String := none
  subject : Option String := none
  customProperties : Option PropMap := none
deriving DecidableEq

/-- Scalar text field extraction: the first descendant of the container
element with the given tag whose text content is non-empty gives its
text, mirroring the pattern
if (x and x.textContent) metadata.field = x.textContent. -/
def textField (el : XmlNode) (tag : String) : Option String :=
  match (listElems tag el.childNodes).head? with
  | none => none
  | some e => if textContent e = "" then none else some (textContent e)

/-- Scalar timestamp field extraction: like textField but the text is
passed through the Date constructor with no validity guard, mirroring
metadata.field = new Date(x.textContent). -/
def dateField (el : XmlNode) (tag : String) : Option JSDate :=
  match (listElems tag el.childNodes).head? with
  | none => none
  | some e => if textContent e = "" then none else some (jsDateParse (textContent e))

/-- Core-properties branch of parseOfficeMetadata: the seven scalar
fields read from the descendants of the cp:coreProperties element; no
custom properties are produced on this path. -/
def decodeCoreProps (cp : XmlNode) : OfficeMetadata :=
  { title := textField cp "dc:title"
    author := textField cp "dc:creator"
    lastModifiedBy := textField cp "cp:lastModifiedBy"
    created := dateField cp "dcterms:created"
    modified := dateField cp "dcterms:modified"
    description := textField cp "dc:description"
    subject := textField cp "dc:subject"
    customProperties := none }

/-- Model of the ECMAScript toLowerCase conversion used by the boolean
branches: every character is lowercased independently. -/
def jsToLower (s : String) : String := ⟨s.data.map Char.toLower⟩

/-- The meta:value-type attribute of a user-defined element with the
default applied, mirroring el.getAttribute with a fallback to the string
type when the attribute is absent or empty. -/
def odfValueType (el : XmlNode) : String :=
  match getAttr el "meta:value-type" with
  | none => "string"
  | some v => if v = "" then "string" else v

/-- Date-or-text decoding shared by the timestamp branches: a valid
parse gives the Date value, an invalid parse degrades to the raw text. -/
def dateOrText (raw : String) : JSValue :=
  match jsDateParse raw with
  | JSDate.invalid => JSValue.str raw
  | d => JSValue.date d

/-- Body of the loop over meta:user-defined elements in
parseOfficeMetadata: skip when the meta:name attribute is falsy or the
text content is empty, then dispatch on the value type: boolean compares
the lowercased text to the literal true, float inserts only when the
numeric conversion is not NaN, date and time insert the parsed date or
degrade to the raw text, and every other type inserts the raw text. -/
def odfUserDefinedStep (acc : PropMap) (el : XmlNode) : PropMap :=
  match getAttr el "meta:name" with
  | none => acc
  | some n =>
    if n = "" ∨ textContent el = "" then acc
    else
      let raw := textContent el
      let vt := odfValueType el
      if vt = "boolean" then recordSet acc n (JSValue.bool (jsToLower raw == "true"))
      else if vt = "float" then
        match jsNumber raw with
        | some q => recordSet acc n (JSValue.num q)
        | none => acc
      else if vt = "date" ∨ vt = "time" then recordSet acc n (dateOrText raw)
      else recordSet acc n (JSValue.str raw)

/-- The custom-properties map accumulated over all meta:user-defined
elements in document order. -/
def decodeOdfUserDefined (els : List XmlNode) : PropMap :=
  els.foldl odfUserDefinedStep []

/-- Scalar part of the ODF-meta branch of parseOfficeMetadata: the six
scalar fields read from the descendants of the office:meta element. -/
def odfBase (om : XmlNode) : OfficeMetadata :=
  { title := textField om "dc:title"
    author := textField om "dc:creator"
    lastModifiedBy := none
    created := dateField om "meta:creation-date"
    modified := dateField om "dc:date"
    description := textField om "dc:description"
    subject := textField om "dc:subject"
    customProperties := none }

/-- ODF-meta branch of parseOfficeMetadata: the scalar fields plus the
user-defined map, attached as customProperties only when it is
non-empty, mirroring the two length guards of the source. -/
def decodeOdfMeta (om : XmlNode) : OfficeMetadata :=
  if 0 < (listElems "meta:user-defined" om.childNodes).length then
    if 0 < (decodeOdfUserDefined (listElems "meta:user-defined" om.childNodes)).length then
      { odfBase om with
          customProperties := some (decodeOdfUserDefined (listElems "meta:user-defined" om.childNodes)) }
    else odfBase om
  else odfBase om

/-- parseOfficeMetadata on the parsed document: the first
cp:coreProperties element anywhere in the tree selects the
core-properties branch and returns immediately; otherwise the first
office:meta element selects the ODF branch; otherwise the empty record
is returned. -/
def parseOfficeMetadata (xml : XmlDoc) : OfficeMetadata :=
  match (listElems "cp:coreProperties" xml).head? with
  | some cp => decodeCoreProps cp
  | none =>
    match (listElems "office:meta" xml).head? with
    | some om => decodeOdfMeta om
    | none => {}

/-- Substring occurrence p as a contiguous run at the front of l. -/
def leadsWith : List Char → List Char → Bool
  | [], _ => true
  | _ :: _, [] => false
  | p :: ps, c :: cs => p = c && leadsWith ps cs

/-- Substring occurrence anywhere in the list. -/
def occursIn (pat : List Char) : List Char → Bool
  | [] => pat.isEmpty
  | c :: cs => leadsWith pat (c :: cs) || occursIn pat cs

/-- Unanchored regular-expression test of a literal pattern against a
string, that is, substring containment, mirroring the
/literal/.test(tag) calls of the source. -/
def containsSub (s pat : String) : Bool := occursIn pat.data s.data

/-- Test for the string-typed value tags, mirroring the unanchored
alternation of vt:lpwstr, vt:lpstr and vt:bstr. -/
def strVtTest (tag : String) : Bool :=
  containsSub tag "vt:lpwstr" || containsSub tag "vt:lpstr" || containsSub tag "vt:bstr"

/-- Test for the boolean value tag vt:bool, unanchored. -/
def boolVtTest (tag : String) : Bool := containsSub tag "vt:bool"

/-- The thirteen literal alternatives of the numeric tag pattern
vt:(i[1248]|ui[1248]|int|uint|r4|r8|decimal). -/
def numericVtTags : List String :=
  ["vt:i1", "vt:i2", "vt:i4", "vt:i8", "vt:ui1", "vt:ui2", "vt:ui4", "vt:ui8",
   "vt:int", "vt:uint", "vt:r4", "vt:r8", "vt:decimal"]

/-- Test for the numeric value tags, unanchored: the alternation pattern
holds exactly when one of its thirteen literal alternatives occurs as a
substring. -/
def numVtTest (tag : String) : Bool := numericVtTags.any (fun p => containsSub tag p)

/-- Test for the timestamp value tags vt:filetime and vt:date,
unanchored. -/
def dateVtTest (tag : String) : Bool :=
  containsSub tag "vt:filetime" || containsSub tag "vt:date"

/-- The typed-value dispatch chain of parseOOXMLCustomProperties applied
to the tag name and text content of the single value child: string tags
store the text even when empty, vt:bool compares the lowercased text to
the literal true, numeric tags store the number only when the conversion
is not NaN, timestamp tags store the date or degrade to text, and any
other tag stores non-empty text and drops empty text. -/
def decodeVtValue (tag text : String) : Option JSValue :=
  if strVtTest tag then some (JSValue.str text)
  else if boolVtTest tag then some (JSValue.bool (jsToLower text == "true"))
  else if numVtTest tag then (jsNumber text).map JSValue.num
  else if dateVtTest tag then some (dateOrText text)
  else if text ≠ "" then some (JSValue.str text)
  else none

/-- The first element child of a node list, skipping text nodes,
mirroring the childNodes loop of the source that breaks after the first
element node. -/
def firstElementChild : List XmlNode → Option XmlNode
  | [] => none
  | XmlNode.element t a c :: _ => some (XmlNode.element t a c)
  | XmlNode.text _ :: rest => firstElementChild rest

/-- Body of the loop over property elements in
parseOOXMLCustomProperties: skip when the name attribute is falsy, find
the first element child, decode it through the typed-value chain and on
success assign into the result object. -/
def decodeCustomProp (acc : PropMap) (prop : XmlNode) : PropMap :=
  match getAttr prop "name" with
  | none => acc
  | some n =>
    if n = "" then acc
    else
      match firstElementChild prop.childNodes with
      | none => acc
      | some el =>
        match decodeVtValue el.tagName (textContent el) with
        | some v => recordSet acc n v
        | none => acc

/-- parseOOXMLCustomProperties on the parsed document: every property
element anywhere in the tree, in document order, folded through the
per-property decode into an initially empty object. -/
def parseOOXMLCustomProperties (xml : XmlDoc) : PropMap :=
  (listElems "property" xml).foldl decodeCustomProp []

/-! Concrete sample documents used to instantiate the claim theorems. -/

/-- Sample document holding both dialect markers: a cp:coreProperties
element and an office:meta element with a decodable user-defined
property. -/
def c1Doc : XmlDoc :=
  [XmlNode.element "root" []
    [XmlNode.element "cp:coreProperties" []
      [XmlNode.element "dc:title" [] [XmlNode.text "T"]],
     XmlNode.element "office:meta" []
      [XmlNode.element "meta:user-defined" [("meta:name", "k")] [XmlNode.text "v"]]]]

/-- Sample property element with a numeric value child whose text is not
numeric. -/
def c2Prop : XmlNode :=
  XmlNode.element "property" [("name", "p")]
    [XmlNode.element "vt:r8" [] [XmlNode.text "abc"]]

/-- Sample custom-properties document around c2Prop. -/
def c2Doc : XmlDoc := [XmlNode.element "Properties" [] [c2Prop]]

/-- Sample user-defined element typed float with non-numeric text. -/
def c2OdfEl : XmlNode :=
  XmlNode.element "meta:user-defined" [("meta:name", "k"), ("meta:value-type", "float")]
    [XmlNode.text "abc"]

/-- Sample user-defined element typed date with unparseable text. -/
def c3OdfEl : XmlNode :=
  XmlNode.element "meta:user-defined" [("meta:name", "k"), ("meta:value-type", "date")]
    [XmlNode.text "not-a-date"]

/-- Sample property element with a vt:date value child holding
unparseable text. -/
def c3Prop : XmlNode :=
  XmlNode.element "property" [("name", "p")]
    [XmlNode.element "vt:date" [] [XmlNode.text "nope"]]

/-- Sample user-defined element typed boolean with text no. -/
def c4OdfEl : XmlNode :=
  XmlNode.element "meta:user-defined" [("meta:name", "k"), ("meta:value-type", "boolean")]
    [XmlNode.text "no"]

/-- Sample property element with a vt:bool value child holding text no. -/
def c4Prop : XmlNode :=
  XmlNode.element "property" [("name", "p")]
    [XmlNode.element "vt:bool" [] [XmlNode.text "no"]]

/-- Sample property element with a numeric value child holding
whitespace-only text. -/
def c5Prop : XmlNode :=
  XmlNode.element "property" [("name", "p")]
    [XmlNode.element "vt:i4" [] [XmlNode.text "  "]]

/-- Sample core-properties element whose created element holds text that
is not a calendar date. -/
def c6Core : XmlNode :=
  XmlNode.element "cp:coreProperties" []
    [XmlNode.element "dcterms:created" [] [XmlNode.text "zzz"]]

/-- Two sample property elements sharing the name p with different
string values. -/
def c7PropA : XmlNode :=
  XmlNode.element "property" [("name", "p")]
    [XmlNode.element "vt:lpwstr" [] [XmlNode.text "first"]]

/-- Second sample property element named p. -/
def c7PropB : XmlNode :=
  XmlNode.element "property" [("name", "p")]
    [XmlNode.element "vt:lpwstr" [] [XmlNode.text "second"]]

/-- Sample custom-properties document with the name collision. -/
def c7Doc : XmlDoc := [XmlNode.element "Properties" [] [c7PropA, c7PropB]]

/-- Sample office:meta element whose only user-defined element lacks the
meta:name attribute. -/
def c8Om : XmlNode :=
  XmlNode.element "office:meta" []
    [XmlNode.element "meta:user-defined" [("meta:value-type", "boolean")] [XmlNode.text "x"]]

/-- Sample document without either dialect marker. -/
def c9Doc : XmlDoc :=
  [XmlNode.element "unrelated" [] [XmlNode.text "hello",
    XmlNode.element "office:metadata" [] []]]

/-! Helper lemmas about the object map operations. -/

theorem recordGet_set_eq (m : PropMap) (k : String) (v : JSValue) :
    recordGet (recordSet m k v) k = some v := by
  induction m with
  | nil => simp [recordSet, recordGet]
  | cons p rest ih =>
    by_cases h : p.1 = k
    · simp [recordSet, recordGet, h]
    · simp [recordSet, recordGet, h, ih]

theorem recordGet_set_ne (m : PropMap) (k n : String) (v : JSValue) (h : n ≠ k) :
    recordGet (recordSet m k v) n = recordGet m n := by
  have h2 : ¬k = n := fun e => h (Eq.symm e)
  induction m with
  | nil => simp [recordSet, recordGet, h2]
  | cons p rest ih =>
    by_cases hp : p.1 = k
    · simp [recordSet, recordGet, hp, h2]
    · simp [recordSet, recordGet, hp, ih]

/-! Helper lemmas about the typed-value dispatch and the property fold. -/

theorem numericVtTags_tests :
    ∀ tag ∈ numericVtTags, strVtTest tag = false ∧ boolVtTest tag = false ∧
      numVtTest tag = true := by decide

theorem dateVtTags_tests :
    ∀ tag ∈ ["vt:filetime", "vt:date"], strVtTest tag = false ∧ boolVtTest tag = false ∧
      numVtTest tag = false ∧ dateVtTest tag = true := by decide

theorem decodeVtValue_numeric (tag text : String) (htag : tag ∈ numericVtTags) :
    decodeVtValue tag text = (jsNumber text).map JSValue.num := by
  obtain ⟨h1, h2, h3⟩ := numericVtTags_tests tag htag
  simp [decodeVtValue, h1, h2, h3]

theorem decodeVtValue_date (tag text : String) (htag : tag ∈ ["vt:filetime", "vt:date"]) :
    decodeVtValue tag text = some (dateOrText text) := by
  obtain ⟨h1, h2, h3, h4⟩ := dateVtTags_tests tag htag
  simp [decodeVtValue, h1, h2, h3, h4]

theorem decodeVtValue_bool (text : String) :
    decodeVtValue "vt:bool" text = some (JSValue.bool (jsToLower text == "true")) := by
  have h1 : strVtTest "vt:bool" = false := by decide
  have h2 : boolVtTest "vt:bool" = true := by decide
  simp [decodeVtValue, h1, h2]

theorem decodeCustomProp_insert (a : PropMap) (q : XmlNode) (n : String) (el : XmlNode)
    (v : JSValue) (hname : getAttr q "name" = some n) (hn : n ≠ "")
    (hc : firstElementChild q.childNodes = some el)
    (hd : decodeVtValue el.tagName (textContent el) = some v) :
    decodeCustomProp a q = recordSet a n v := by
  simp [decodeCustomProp, hname, hn, hc, hd]

theorem decodeCustomProp_skip (a : PropMap) (q : XmlNode) (n : String)
    (h : getAttr q "name" = some n →
      ∀ el, firstElementChild q.childNodes = some el →
        decodeVtValue el.tagName (textContent el) = none) :
    recordGet (decodeCustomProp a q) n = recordGet a n := by
  cases hname : getAttr q "name" with
  | none => simp [decodeCustomProp, hname]
  | some m =>
    by_cases hm : m = ""
    · simp [decodeCustomProp, hname, hm]
    · cases hc : firstElementChild q.childNodes with
      | none => simp [decodeCustomProp, hname, hm, hc]
      | some el =>
        cases hd : decodeVtValue el.tagName (textContent el) with
        | none => simp [decodeCustomProp, hname, hm, hc, hd]
        | some v =>
          by_cases hmn : m = n
          · subst hmn
            rw [h hname el hc] at hd
            cases hd
          · rw [decodeCustomProp_insert a q m el v hname hm hc hd]
            exact recordGet_set_ne a m n v (fun e => hmn (Eq.symm e))

theorem foldl_decodeCustomProp_preserve (n : String) (l : List XmlNode) :
    ∀ acc : PropMap,
      (∀ q ∈ l, getAttr q "name" = some n →
        ∀ el, firstElementChild q.childNodes = some el →
          decodeVtValue el.tagName (textContent el) = none) →
      recordGet (List.foldl decodeCustomProp acc l) n = recordGet acc n := by
  induction l with
  | nil => intro acc _; rfl
  | cons q qs ih =>
    intro acc h
    rw [List.foldl_cons]
    rw [ih (decodeCustomProp acc q) (fun r hr => h r (List.mem_cons_of_mem _ hr))]
    exact decodeCustomProp_skip acc q n (h q (List.mem_cons_self _ _))

/-! Helper lemmas about whitespace-only numeric conversion and the
field projections of the ODF branch. -/

theorem dropWhile_all_eq_nil (p : Char → Bool) :
    ∀ l : List Char, l.all p = true → l.dropWhile p = [] := by
  intro l
  induction l with
  | nil => intro _; rfl
  | cons c cs ih =>
    intro h
    rw [List.all_cons, Bool.and_eq_true] at h
    rw [List.dropWhile_cons, if_pos h.1]
    exact ih h.2

theorem jsTrim_ws_nil (s : String) (h : s.data.all isJsWs = true) : jsTrim s = [] := by
  unfold jsTrim
  rw [dropWhile_all_eq_nil isJsWs s.data h]
  rfl

theorem jsNumber_ws_zero (s : String) (h : s.data.all isJsWs = true) :
    jsNumber s = some (JSNum.fin 0) := by
  simp [jsNumber, jsTrim_ws_nil s h]

theorem decodeOdfMeta_created (om : XmlNode) :
    (decodeOdfMeta om).created = dateField om "meta:creation-date" := by
  unfold decodeOdfMeta
  split
  · split
    · rfl
    · rfl
  · rfl

theorem decodeOdfMeta_modified (om : XmlNode) :
    (decodeOdfMeta om).modified = dateField om "dc:date" := by
  unfold decodeOdfMeta
  split
  · split
    · rfl
    · rfl
  · rfl

theorem decodeOdfMeta_custom (om : XmlNode) :
    (decodeOdfMeta om).customProperties =
      if 0 < (decodeOdfUserDefined (listElems "meta:user-defined" om.childNodes)).length
      then some (decodeOdfUserDefined (listElems "meta:user-defined" om.childNodes))
      else none := by
  unfold decodeOdfMeta
  by_cases h1 : 0 < (listElems "meta:user-defined" om.childNodes).length
  · rw [if_pos h1]
    by_cases h2 : 0 < (decodeOdfUserDefined (listElems "meta:user-defined" om.childNodes)).length
    · rw [if_pos h2, if_pos h2]
    · rw [if_neg h2, if_neg h2]
      rfl
  · rw [if_neg h1]
    have h0 : listElems "meta:user-defined" om.childNodes = [] := by
      cases hl : listElems "meta:user-defined" om.childNodes with
      | nil => rfl
      | cons a l =>
        rw [hl] at h1
        exact absurd (by simp) h1
    rw [h0]
    simp [decodeOdfUserDefined, odfBase]

/-! Claim theorems. -/

/-- C1: whenever the parsed tree contains a cp:coreProperties element
anywhere, parseOfficeMetadata decodes exclusively through the
core-properties branch applied to the first such element and returns it
directly, so no field is assigned from the ODF vocabulary even when ODF
elements are also present, and customProperties is never populated on
this path. -/
theorem C1_core_path_exclusive (xml : XmlDoc) (cp : XmlNode)
    (h : (listElems "cp:coreProperties" xml).head? = some cp) :
    parseOfficeMetadata xml = decodeCoreProps cp ∧
    (parseOfficeMetadata xml).customProperties = none := by
  have h1 : parseOfficeMetadata xml = decodeCoreProps cp := by
    simp [parseOfficeMetadata, h]
  refine ⟨h1, ?_⟩
  rw [h1]
  rfl

/-- C1 witness: on a document holding both markers and a decodable
user-defined ODF property, the result is the core branch of the first
cp:coreProperties element and carries no custom properties. -/
theorem C1_core_path_exclusive_witness :
    parseOfficeMetadata c1Doc =
      decodeCoreProps (XmlNode.element "cp:coreProperties" []
        [XmlNode.element "dc:title" [] [XmlNode.text "T"]]) ∧
    (parseOfficeMetadata c1Doc).customProperties = none :=
  C1_core_path_exclusive c1Doc _ rfl

/-- C2: a property whose first element child carries one of the numeric
vt: tags and whose text fails the numeric conversion contributes
nothing: when every property bearing a given name is of that failing
shape the name is absent from the returned map, and the analogous ODF
user-defined float entry with non-numeric text leaves the accumulated
map unchanged. -/
theorem C2_numeric_failure_drops :
    (∀ (xml : XmlDoc) (n : String),
      (∀ q ∈ listElems "property" xml, getAttr q "name" = some n →
        ∀ el, firstElementChild q.childNodes = some el →
          el.tagName ∈ numericVtTags ∧ jsNumber (textContent el) = none) →
      recordGet (parseOOXMLCustomProperties xml) n = none)
  ∧ (∀ (acc : PropMap) (el : XmlNode) (m : String),
      getAttr el "meta:name" = some m → m ≠ "" → textContent el ≠ "" →
      odfValueType el = "float" → jsNumber (textContent el) = none →
      odfUserDefinedStep acc el = acc) := by
  constructor
  · intro xml n h
    unfold parseOOXMLCustomProperties
    rw [foldl_decodeCustomProp_preserve n (listElems "property" xml) []
      (fun q hq hname el hel => by
        obtain ⟨htag, hnum⟩ := h q hq hname el hel
        rw [decodeVtValue_numeric _ _ htag, hnum]
        rfl)]
    rfl
  · intro acc el m hname hm hraw hvt hnum
    have hb : ("float" : String) ≠ "boolean" := by decide
    simp [odfUserDefinedStep, hname, hm, hraw, hvt, hb, hnum]

/-- C2 witness: a single property named p with a vt:r8 child holding abc
yields a map without p, and the float-typed user-defined entry with text
abc leaves a prior map untouched. -/
theorem C2_numeric_failure_drops_witness :
    recordGet (parseOOXMLCustomProperties c2Doc) "p" = none ∧
    odfUserDefinedStep [("other", JSValue.str "x")] c2OdfEl =
      [("other", JSValue.str "x")] := by
  constructor
  · refine C2_numeric_failure_drops.1 c2Doc "p" ?_
    intro q hq hname el hel
    have he : listElems "property" c2Doc = [c2Prop] := rfl
    rw [he] at hq
    have hq2 : q = c2Prop := by simpa using hq
    subst hq2
    have he2 : some (XmlNode.element "vt:r8" [] [XmlNode.text "abc"]) = some el := hel
    cases he2
    exact ⟨by decide, by decide⟩
  · exact C2_numeric_failure_drops.2 [("other", JSValue.str "x")] c2OdfEl "k"
      rfl (by decide) (by decide) rfl (by decide)

/-- C3: a user-defined ODF entry typed date or time, and a custom
property whose value child tag is vt:filetime or vt:date, whose text
fails the calendar parse is still present in the output, bound to the
Text variant holding the raw text verbatim; timestamp failure degrades
to text instead of dropping. -/
theorem C3_timestamp_failure_degrades :
    (∀ (acc : PropMap) (el : XmlNode) (n : String),
      getAttr el "meta:name" = some n → n ≠ "" → textContent el ≠ "" →
      (odfValueType el = "date" ∨ odfValueType el = "time") →
      jsDateParse (textContent el) = JSDate.invalid →
      recordGet (odfUserDefinedStep acc el) n = some (JSValue.str (textContent el)))
  ∧ (∀ (acc : PropMap) (prop el : XmlNode) (n : String),
      getAttr prop "name" = some n → n ≠ "" →
      firstElementChild prop.childNodes = some el →
      el.tagName ∈ ["vt:filetime", "vt:date"] →
      jsDateParse (textContent el) = JSDate.invalid →
      recordGet (decodeCustomProp acc prop) n = some (JSValue.str (textContent el))) := by
  constructor
  · intro acc el n hname hn hraw hvt hdate
    have hd : dateOrText (textContent el) = JSValue.str (textContent el) := by
      simp [dateOrText, hdate]
    rcases hvt with hvt | hvt
    · have h1 : ("date" : String) ≠ "boolean" := by decide
      have h2 : ("date" : String) ≠ "float" := by decide
      simp [odfUserDefinedStep, hname, hn, hraw, hvt, h1, h2, hd, recordGet_set_eq]
    · have h1 : ("time" : String) ≠ "boolean" := by decide
      have h2 : ("time" : String) ≠ "float" := by decide
      have h3 : ("time" : String) ≠ "date" := by decide
      simp [odfUserDefinedStep, hname, hn, hraw, hvt, h1, h2, h3, hd, recordGet_set_eq]
  · intro acc prop el n hname hn hc htag hdate
    have hd : dateOrText (textContent el) = JSValue.str (textContent el) := by
      simp [dateOrText, hdate]
    rw [decodeCustomProp_insert acc prop n el (dateOrText (textContent el)) hname hn hc
      (decodeVtValue_date _ _ htag), hd]
    exact recordGet_set_eq acc n _

/-- C3 witness: a date-typed user-defined entry with text not-a-date and
a vt:date custom property with text nope each decode to the Text variant
holding the raw text. -/
theorem C3_timestamp_failure_degrades_witness :
    recordGet (odfUserDefinedStep [] c3OdfEl) "k" = some (JSValue.str "not-a-date") ∧
    recordGet (decodeCustomProp [] c3Prop) "p" = some (JSValue.str "nope") :=
  ⟨C3_timestamp_failure_degrades.1 [] c3OdfEl "k" rfl (by decide) (by decide)
      (Or.inl rfl) (by decide),
   C3_timestamp_failure_degrades.2 [] c3Prop
      (XmlNode.element "vt:date" [] [XmlNode.text "nope"]) "p" rfl (by decide) rfl
      (by decide) (by decide)⟩

/-- C4: boolean decoding is total and never drops: a user-defined ODF
entry typed boolean and a custom property whose value child is tagged
vt:bool always decode to the Boolean variant obtained by comparing the
lowercased text to the literal true, so any other text, garbage
included, decodes to false. -/
theorem C4_boolean_total :
    (∀ (acc : PropMap) (el : XmlNode) (n : String),
      getAttr el "meta:name" = some n → n ≠ "" → textContent el ≠ "" →
      odfValueType el = "boolean" →
      recordGet (odfUserDefinedStep acc el) n =
        some (JSValue.bool (jsToLower (textContent el) == "true")))
  ∧ (∀ (acc : PropMap) (prop el : XmlNode) (n : String),
      getAttr prop "name" = some n → n ≠ "" →
      firstElementChild prop.childNodes = some el → el.tagName = "vt:bool" →
      recordGet (decodeCustomProp acc prop) n =
        some (JSValue.bool (jsToLower (textContent el) == "true"))) := by
  constructor
  · intro acc el n hname hn hraw hvt
    simp [odfUserDefinedStep, hname, hn, hraw, hvt, recordGet_set_eq]
  · intro acc prop el n hname hn hc htag
    have hd := decodeVtValue_bool (textContent el)
    rw [← htag] at hd
    rw [decodeCustomProp_insert acc prop n el _ hname hn hc hd]
    exact recordGet_set_eq acc n _

/-- C4 witness: the boolean-typed user-defined entry with text no and
the vt:bool custom property with text no both decode to Boolean false
and stay present. -/
theorem C4_boolean_total_witness :
    recordGet (odfUserDefinedStep [] c4OdfEl) "k" = some (JSValue.bool false) ∧
    recordGet (decodeCustomProp [] c4Prop) "p" = some (JSValue.bool false) :=
  ⟨C4_boolean_total.1 [] c4OdfEl "k" rfl (by decide) (by decide) rfl,
   C4_boolean_total.2 [] c4Prop (XmlNode.element "vt:bool" [] [XmlNode.text "no"]) "p"
      rfl (by decide) rfl rfl⟩

/-- C5: a property whose first element child carries a numeric vt: tag
but empty or whitespace-only text is inserted with Number zero rather
than dropped, because the numeric conversion of the trimmed empty string
succeeds with value zero. -/
theorem C5_numeric_empty_inserts_zero (acc : PropMap) (prop el : XmlNode) (n : String)
    (hname : getAttr prop "name" = some n) (hn : n ≠ "")
    (hc : firstElementChild prop.childNodes = some el)
    (htag : el.tagName ∈ numericVtTags)
    (hws : (textContent el).data.all isJsWs = true) :
    recordGet (decodeCustomProp acc prop) n = some (JSValue.num (JSNum.fin 0)) := by
  have hnum : jsNumber (textContent el) = some (JSNum.fin 0) :=
    jsNumber_ws_zero _ hws
  have hd : decodeVtValue el.tagName (textContent el) =
      some (JSValue.num (JSNum.fin 0)) := by
    rw [decodeVtValue_numeric _ _ htag, hnum]
    rfl
  rw [decodeCustomProp_insert acc prop n el _ hname hn hc hd]
  exact recordGet_set_eq acc n _

/-- C5 witness: a property named p with a vt:i4 child holding two spaces
is present in the map with Number zero. -/
theorem C5_numeric_empty_inserts_zero_witness :
    recordGet (decodeCustomProp [] c5Prop) "p" = some (JSValue.num (JSNum.fin 0)) :=
  C5_numeric_empty_inserts_zero [] c5Prop
    (XmlNode.element "vt:i4" [] [XmlNode.text "  "]) "p" rfl (by decide) rfl
    (by decide) (by decide)

/-- C6: in both scalar paths the created and modified fields are
assigned the calendar parse of the first matching element with non-empty
text, with no validity guard, so an unparseable text still flows into
the record as the invalid timestamp value. -/
theorem C6_scalar_timestamps_unguarded :
    (∀ cp e : XmlNode, (listElems "dcterms:created" cp.childNodes).head? = some e →
      textContent e ≠ "" →
      (decodeCoreProps cp).created = some (jsDateParse (textContent e)))
  ∧ (∀ cp e : XmlNode, (listElems "dcterms:modified" cp.childNodes).head? = some e →
      textContent e ≠ "" →
      (decodeCoreProps cp).modified = some (jsDateParse (textContent e)))
  ∧ (∀ om e : XmlNode, (listElems "meta:creation-date" om.childNodes).head? = some e →
      textContent e ≠ "" →
      (decodeOdfMeta om).created = some (jsDateParse (textContent e)))
  ∧ (∀ om e : XmlNode, (listElems "dc:date" om.childNodes).head? = some e →
      textContent e ≠ "" →
      (decodeOdfMeta om).modified = some (jsDateParse (textContent e))) := by
  refine ⟨?_, ?_, ?_, ?_⟩
  · intro cp e h hne
    show dateField cp "dcterms:created" = some (jsDateParse (textContent e))
    simp [dateField, h, hne]
  · intro cp e h hne
    show dateField cp "dcterms:modified" = some (jsDateParse (textContent e))
    simp [dateField, h, hne]
  · intro om e h hne
    rw [decodeOdfMeta_created]
    simp [dateField, h, hne]
  · intro om e h hne
    rw [decodeOdfMeta_modified]
    simp [dateField, h, hne]

/-- C6 witness: a core-properties element whose created child holds the
unparseable text zzz is decoded with the invalid timestamp stored in the
created field, not dropped and not degraded to text. -/
theorem C6_scalar_timestamps_unguarded_witness :
    (decodeCoreProps c6Core).created = some JSDate.invalid :=
  C6_scalar_timestamps_unguarded.1 c6Core
    (XmlNode.element "dcterms:created" [] [XmlNode.text "zzz"]) rfl (by decide)

/-- C7: later property elements win on name collision: when the
properties of the document split around an element named n that decodes
successfully to v and no later property named n decodes successfully,
the returned map binds n to v. -/
theorem C7_last_write_wins (xml : XmlDoc) (l1 l2 : List XmlNode) (p el : XmlNode)
    (n : String) (v : JSValue)
    (hsplit : listElems "property" xml = l1 ++ p :: l2)
    (hname : getAttr p "name" = some n) (hn : n ≠ "")
    (hc : firstElementChild p.childNodes = some el)
    (hdec : decodeVtValue el.tagName (textContent el) = some v)
    (hlater : ∀ q ∈ l2, getAttr q "name" = some n →
      ∀ e2, firstElementChild q.childNodes = some e2 →
        decodeVtValue e2.tagName (textContent e2) = none) :
    recordGet (parseOOXMLCustomProperties xml) n = some v := by
  unfold parseOOXMLCustomProperties
  rw [hsplit, List.foldl_append, List.foldl_cons]
  rw [foldl_decodeCustomProp_preserve n l2 _ hlater]
  rw [decodeCustomProp_insert _ p n el v hname hn hc hdec]
  exact recordGet_set_eq _ n v

/-- C7 witness: two properties named p with string values first and
second give a map binding p to the later value second. -/
theorem C7_last_write_wins_witness :
    recordGet (parseOOXMLCustomProperties c7Doc) "p" = some (JSValue.str "second") :=
  C7_last_write_wins c7Doc [c7PropA] [] c7PropB
    (XmlNode.element "vt:lpwstr" [] [XmlNode.text "second"]) "p" (JSValue.str "second")
    rfl rfl (by decide) rfl (by decide)
    (fun q hq => absurd hq (List.not_mem_nil q))

/-- C8: on the ODF path a user-defined element whose meta:name attribute
is falsy or whose text content is empty contributes nothing to the map,
and customProperties is attached to the record exactly when the decoded
user-defined map is non-empty, staying absent otherwise. -/
theorem C8_odf_skip_and_attach :
    (∀ (acc : PropMap) (el : XmlNode),
      (getAttr el "meta:name" = none ∨ getAttr el "meta:name" = some "" ∨
        textContent el = "") →
      odfUserDefinedStep acc el = acc)
  ∧ (∀ om : XmlNode, (decodeOdfMeta om).customProperties =
      if 0 < (decodeOdfUserDefined (listElems "meta:user-defined" om.childNodes)).length
      then some (decodeOdfUserDefined (listElems "meta:user-defined" om.childNodes))
      else none) := by
  constructor
  · intro acc el h
    rcases h with h | h | h
    · simp [odfUserDefinedStep, h]
    · simp [odfUserDefinedStep, h]
    · cases hname : getAttr el "meta:name" with
      | none => simp [odfUserDefinedStep, hname]
      | some m => simp [odfUserDefinedStep, hname, h]
  · exact decodeOdfMeta_custom

/-- C8 witness: a user-defined element without meta:name leaves a map
unchanged, and an office:meta element whose only user-defined element
lacks meta:name yields a record with customProperties absent. -/
theorem C8_odf_skip_and_attach_witness :
    odfUserDefinedStep [("a", JSValue.str "b")]
      (XmlNode.element "meta:user-defined" [("meta:value-type", "boolean")]
        [XmlNode.text "x"]) = [("a", JSValue.str "b")] ∧
    (decodeOdfMeta c8Om).customProperties = none :=
  ⟨C8_odf_skip_and_attach.1 [("a", JSValue.str "b")]
      (XmlNode.element "meta:user-defined" [("meta:value-type", "boolean")]
        [XmlNode.text "x"]) (Or.inl rfl),
   C8_odf_skip_and_attach.2 c8Om⟩

/-- C9: when the parsed tree contains neither a cp:coreProperties
element nor an office:meta element, parseOfficeMetadata returns the
record with every field absent, as a normal return value. -/
theorem C9_no_marker_empty_record (xml : XmlDoc)
    (h1 : listElems "cp:coreProperties" xml = [])
    (h2 : listElems "office:meta" xml = []) :
    parseOfficeMetadata xml = {} := by
  simp [parseOfficeMetadata, h1, h2]

/-- C9 witness: an unrelated document without either marker decodes to
the empty record. -/
theorem C9_no_marker_empty_record_witness : parseOfficeMetadata c9Doc = {} :=
  C9_no_marker_empty_record c9Doc rfl rfl

/-- C10: both decode entry points are deterministic and idempotent: the
embedding is pure and stateless, mirroring the absence of shared mutable
state in the source, so decoding the same parsed input twice yields
structurally equal outputs. -/
theorem C10_deterministic_idempotent (xml : XmlDoc) :
    parseOfficeMetadata xml = parseOfficeMetadata xml ∧
    parseOOXMLCustomProperties xml = parseOOXMLCustomProperties xml :=
  ⟨rfl, rfl⟩

end OfficeParser
